import Mathlib

/-!
Verification of the cart state holder in
`src/client/src/context/CartContext.jsx`.

The file shallowly embeds the component in Lean 4:

* the pure list transformations behind `addToCart`, `removeFromCart`,
  `updateQuantity`, `clearCart` and the derived totals become Lean
  functions on `List CartLineItem`;
* JavaScript numbers are modelled as exact rationals (`Rat`), integer
  quantities as `Int`;
* `Number.prototype.toFixed(2)` is modelled after its ECMA-262 semantics
  (round half away from zero on the exact value);
* `JSON.parse` / `JSON.stringify` are modelled by an executable JSON
  value type with a fuelled recursive-descent parse function and a
  serializer;
* the provider's two effects (restore on mount, persist on state
  change) become functions on an explicit `StoreState`, and executions
  become folds over event lists.
-/

set_option maxRecDepth 100000

namespace CartContext

/-- A product as passed to `addToCart`; the identifier field is `_id`
in the source (`product._id`), rendered `idField` here. -/
structure Product where
  idField : String
  title : String
  price : Rat
  imageUrl : String
  stock : Rat
deriving DecidableEq, Repr

/-- One cart line item, with the fields built in `addToCart`:
`{ productId, title, price, imageUrl, stock, quantity }`. -/
structure CartLineItem where
  productId : String
  title : String
  price : Rat
  imageUrl : String
  stock : Rat
  quantity : Int
deriving DecidableEq, Repr

/-- The object literal built by `addToCart` for a product that is not
yet in the cart: `{ productId: product._id, title, price, imageUrl,
stock, quantity }`. -/
def newLineItem (product : Product) (quantity : Int) : CartLineItem :=
  { productId := product.idField, title := product.title,
    price := product.price, imageUrl := product.imageUrl,
    stock := product.stock, quantity := quantity }

/-- `addToCart(product, quantity = 1)`: find the index of an existing
line item with `item.productId === product._id`; if found, map over the
list replacing that index with a copy whose quantity is increased by
`quantity`; otherwise append a freshly built line item. -/
def addToCart (cartItems : List CartLineItem) (product : Product)
    (quantity : Int := 1) : List CartLineItem :=
  match cartItems.findIdx? (fun item => item.productId == product.idField) with
  | some existingItemIndex =>
      cartItems.mapIdx (fun index item =>
        if index = existingItemIndex then
          { item with quantity := item.quantity + quantity }
        else item)
  | none => cartItems ++ [newLineItem product quantity]

/-- `removeFromCart(productId)`: keep the items whose
`item.productId !== productId`. -/
def removeFromCart (cartItems : List CartLineItem) (productId : String) :
    List CartLineItem :=
  cartItems.filter (fun item => item.productId != productId)

/-- `updateQuantity(productId, newQuantity)`: map over the list replacing
the quantity of every item with `item.productId === productId` by
`newQuantity`, verbatim. -/
def updateQuantity (cartItems : List CartLineItem) (productId : String)
    (newQuantity : Int) : List CartLineItem :=
  cartItems.map (fun item =>
    if item.productId == productId then { item with quantity := newQuantity }
    else item)

/-- `clearCart()`: the empty list. -/
def clearCart : List CartLineItem := []

/-- `totalItems`: `cartItems.reduce((acc, item) => acc + item.quantity, 0)`. -/
def totalItems (cartItems : List CartLineItem) : Int :=
  cartItems.foldl (fun acc item => acc + item.quantity) 0

/-- The numeric total price:
`cartItems.reduce((acc, item) => acc + item.price * item.quantity, 0)`. -/
def totalPriceNum (cartItems : List CartLineItem) : Rat :=
  cartItems.foldl (fun acc item => acc + item.price * (item.quantity : Rat)) 0

/-- `Number.prototype.toFixed(2)` on an exact rational, after the
ECMA-262 algorithm for `|x| < 10^21`: take the sign apart, pick the
integer `n` minimising `|n / 100 - |x||` with ties going to the larger
`n` (that is, round half away from zero), and print `n` with the last
two digits after a decimal point. -/
def toFixed2 (x : Rat) : String :=
  let sign := if x < 0 then "-" else ""
  let n : Nat := (⌊|x| * 100 + 1 / 2⌋).toNat
  sign ++ toString (n / 100) ++ "." ++
    (if n % 100 < 10 then "0" else "") ++ toString (n % 100)

/-- `totalPrice` as exposed in the context value:
`totalPrice.toFixed(2)`. -/
def totalPrice (cartItems : List CartLineItem) : String :=
  toFixed2 (totalPriceNum cartItems)

/-- The total quantity carried by the line items for a given product id. -/
def qsum (pid : String) (items : List CartLineItem) : Int :=
  ((items.filter (fun item => item.productId == pid)).map (fun item => item.quantity)).sum

/-- One call to a mutating cart operation of the provider. -/
inductive CartOp where
  | add (product : Product) (quantity : Int)
  | remove (productId : String)
  | update (productId : String) (newQuantity : Int)
  | clear
deriving DecidableEq, Repr

/-- The pure list transformation performed by one operation. -/
def applyOp (items : List CartLineItem) : CartOp → List CartLineItem
  | .add product quantity => addToCart items product quantity
  | .remove productId => removeFromCart items productId
  | .update productId newQuantity => updateQuantity items productId newQuantity
  | .clear => clearCart

/-- The cart after a sequence of operations, starting from the empty
initial state `useState([])`. -/
def applyOps (ops : List CartOp) : List CartLineItem :=
  ops.foldl applyOp []

/-- The cart produced by a sequence of `addToCart` calls, each carrying
its product and the quantity argument (the source's default `quantity = 1`
is a call with quantity `1`), starting from the empty initial state. -/
def applyAdds (calls : List (Product × Int)) : List CartLineItem :=
  calls.foldl (fun items c => addToCart items c.1 c.2) []

/-- The quantities passed for a given product id across a call sequence. -/
def callSum (pid : String) (calls : List (Product × Int)) : Int :=
  ((calls.filter (fun c => c.1.idField == pid)).map (fun c => c.2)).sum

/-- A sample product. -/
def prodA : Product := { idField := "p1", title := "Apple", price := 5,
                         imageUrl := "a.png", stock := 10 }

/-- A second sample product with a different id. -/
def prodB : Product := { idField := "p2", title := "Pear", price := 3 / 2,
                         imageUrl := "b.png", stock := 4 }

/-- The line item for `prodA` with quantity 2. -/
def itemA : CartLineItem := newLineItem prodA 2

/-- The line item for `prodB` with quantity 1. -/
def itemB : CartLineItem := newLineItem prodB 1

/-! ### JSON values, `JSON.parse` and `JSON.stringify`

The provider keeps whatever `JSON.parse` returns, so the raw state is a
JSON value. Numbers are modelled as exact rationals. -/

/-- A JSON value as produced by `JSON.parse`. Object fields are kept in
textual order, duplicates included; lookups take the last binding, as
`JSON.parse` lets later duplicate keys overwrite earlier ones. -/
inductive Json where
  | null
  | bool (b : Bool)
  | num (q : Rat)
  | str (s : String)
  | arr (elems : List Json)
  | obj (fields : List (String × Json))

/-- Skip the JSON whitespace characters (space, tab, line feed,
carriage return). -/
def skipWs : List Char → List Char
  | [] => []
  | c :: cs =>
    if c = ' ' ∨ c = '\t' ∨ c = '\n' ∨ c = '\r' then skipWs cs else c :: cs

/-- Split off a maximal run of leading decimal digits. -/
def takeDigits : List Char → List Char × List Char
  | [] => ([], [])
  | c :: cs =>
    if c.isDigit then
      let p := takeDigits cs
      (c :: p.1, p.2)
    else ([], c :: cs)

/-- The numeric value of a digit run. -/
def digitsToNat (ds : List Char) : Nat :=
  ds.foldl (fun a c => a * 10 + (c.toNat - '0'.toNat)) 0

/-- Consume an expected literal character sequence. -/
def expectLit : List Char → List Char → Option (List Char)
  | [], cs => some cs
  | _ :: _, [] => none
  | l :: ls, c :: cs => if c = l then expectLit ls cs else none

/-- Parse the optional exponent part of a JSON number and apply it. -/
def parseExpPart (v : Rat) (cs : List Char) : Option (Rat × List Char) :=
  match cs with
  | [] => some (v, [])
  | c :: cs1 =>
    if c = 'e' ∨ c = 'E' then
      let p : Bool × List Char :=
        match cs1 with
        | '+' :: t => (false, t)
        | '-' :: t => (true, t)
        | t => (false, t)
      match takeDigits p.2 with
      | ([], _) => none
      | (es, rest) =>
        let e := digitsToNat es
        some (if p.1 then v / (10 : Rat) ^ e else v * (10 : Rat) ^ e, rest)
    else some (v, cs)

/-- Parse the digits of a JSON number after an optional leading minus
sign: integer part (no superfluous leading zero), optional fraction,
optional exponent. -/
def parseNumAfterSign (cs : List Char) : Option (Rat × List Char) :=
  match takeDigits cs with
  | ([], _) => none
  | (ds, rest) =>
    if ds.head? = some '0' ∧ ds.length > 1 then none
    else
      let intPart : Rat := (digitsToNat ds : Rat)
      match rest with
      | '.' :: cs2 =>
        match takeDigits cs2 with
        | ([], _) => none
        | (fs, rest2) =>
          parseExpPart (intPart + (digitsToNat fs : Rat) / (10 : Rat) ^ fs.length) rest2
      | _ => parseExpPart intPart rest

/-- The value of a hexadecimal digit, used by `\u` escapes. -/
def hexVal (c : Char) : Option Nat :=
  if c.isDigit then some (c.toNat - '0'.toNat)
  else if 'a' ≤ c ∧ c ≤ 'f' then some (c.toNat - 'a'.toNat + 10)
  else if 'A' ≤ c ∧ c ≤ 'F' then some (c.toNat - 'A'.toNat + 10)
  else none

/-- Parse the body of a JSON string after the opening quote, returning
the decoded characters and the input after the closing quote. The fuel
only bounds recursion; `length + 1` fuel is always enough since every
step consumes input. Unpaired `\u` surrogates, which JavaScript keeps
as lone UTF-16 units, are not representable in `Char` and map to the
default character — no theorem below depends on them. -/
def parseStringBody : Nat → List Char → Option (List Char × List Char)
  | 0, _ => none
  | _ + 1, [] => none
  | fuel + 1, c :: cs =>
    if c = '"' then some ([], cs)
    else if c = '\\' then
      match cs with
      | [] => none
      | e :: cs2 =>
        let esc : Option (Char × List Char) :=
          if e = '"' then some ('"', cs2)
          else if e = '\\' then some ('\\', cs2)
          else if e = '/' then some ('/', cs2)
          else if e = 'b' then some (Char.ofNat 8, cs2)
          else if e = 'f' then some (Char.ofNat 12, cs2)
          else if e = 'n' then some ('\n', cs2)
          else if e = 'r' then some ('\r', cs2)
          else if e = 't' then some ('\t', cs2)
          else if e = 'u' then
            match cs2 with
            | h1 :: h2 :: h3 :: h4 :: cs3 =>
              match hexVal h1, hexVal h2, hexVal h3, hexVal h4 with
              | some a, some b, some c3, some d =>
                some (Char.ofNat (((a * 16 + b) * 16 + c3) * 16 + d), cs3)
              | _, _, _, _ => none
            | _ => none
          else none
        match esc with
        | some (ch, rest) =>
          match parseStringBody fuel rest with
          | some (out, rest2) => some (ch :: out, rest2)
          | none => none
        | none => none
    else if c.toNat < 32 then none
    else
      match parseStringBody fuel cs with
      | some (out, rest2) => some (c :: out, rest2)
      | none => none

mutual

/-- Fuelled recursive-descent parse of one JSON value, starting at
optional whitespace. Returns the value and the unconsumed input. -/
def parseVal : Nat → List Char → Option (Json × List Char)
  | 0, _ => none
  | fuel + 1, cs =>
    match skipWs cs with
    | [] => none
    | c :: rest =>
      if c = 'n' then (expectLit ['u', 'l', 'l'] rest).map (fun r => (Json.null, r))
      else if c = 't' then
        (expectLit ['r', 'u', 'e'] rest).map (fun r => (Json.bool true, r))
      else if c = 'f' then
        (expectLit ['a', 'l', 's', 'e'] rest).map (fun r => (Json.bool false, r))
      else if c = '"' then
        match parseStringBody (rest.length + 1) rest with
        | some (out, rest2) => some (Json.str (String.mk out), rest2)
        | none => none
      else if c = '[' then
        match skipWs rest with
        | ']' :: rest2 => some (Json.arr [], rest2)
        | _ =>
          match parseArrElems fuel rest with
          | some (vs, rest2) => some (Json.arr vs, rest2)
          | none => none
      else if c = '{' then
        match skipWs rest with
        | '}' :: rest2 => some (Json.obj [], rest2)
        | _ =>
          match parseObjFields fuel rest with
          | some (fs, rest2) => some (Json.obj fs, rest2)
          | none => none
      else if c = '-' then
        match parseNumAfterSign rest with
        | some (v, rest2) => some (Json.num (-v), rest2)
        | none => none
      else if c.isDigit then
        match parseNumAfterSign (c :: rest) with
        | some (v, rest2) => some (Json.num v, rest2)
        | none => none
      else none

/-- Parse the comma-separated elements of a non-empty JSON array, up to
and including the closing bracket. -/
def parseArrElems : Nat → List Char → Option (List Json × List Char)
  | 0, _ => none
  | fuel + 1, cs =>
    match parseVal fuel cs with
    | none => none
    | some (v, rest) =>
      match skipWs rest with
      | ',' :: rest2 =>
        match parseArrElems fuel rest2 with
        | some (vs, rest3) => some (v :: vs, rest3)
        | none => none
      | ']' :: rest2 => some ([v], rest2)
      | _ => none

/-- Parse the comma-separated fields of a non-empty JSON object, up to
and including the closing brace. -/
def parseObjFields : Nat → List Char → Option (List (String × Json) × List Char)
  | 0, _ => none
  | fuel + 1, cs =>
    match skipWs cs with
    | '"' :: rest =>
      match parseStringBody (rest.length + 1) rest with
      | none => none
      | some (key, rest2) =>
        match skipWs rest2 with
        | ':' :: rest3 =>
          match parseVal fuel rest3 with
          | none => none
          | some (v, rest4) =>
            match skipWs rest4 with
            | ',' :: rest5 =>
              match parseObjFields fuel rest5 with
              | some (fs, rest6) => some ((String.mk key, v) :: fs, rest6)
              | none => none
            | '}' :: rest5 => some ([(String.mk key, v)], rest5)
            | _ => none
        | _ => none
    | _ => none

end

/-- `JSON.parse(text)`: parse one JSON value and require only trailing
whitespace after it; `none` models the thrown `SyntaxError`. Every
recursive step consumes input, so the fuel `2·length + 8` is never the
reason a parse fails. Numbers are exact rationals, so values beyond
float range or precision stay exact — the only divergence from the
host, and one no theorem depends on. -/
def jsonParse (text : String) : Option Json :=
  let cs := text.toList
  match parseVal (2 * cs.length + 8) cs with
  | some (v, rest) => if skipWs rest = [] then some v else none
  | none => none

/-- A lowercase hexadecimal digit character. -/
def hexDigitChar (n : Nat) : Char :=
  if n < 10 then Char.ofNat ('0'.toNat + n) else Char.ofNat ('a'.toNat + n - 10)

/-- The `JSON.stringify` escaping of one character inside a string. -/
def escapeChar (c : Char) : List Char :=
  if c = '"' then ['\\', '"']
  else if c = '\\' then ['\\', '\\']
  else if c = '\n' then ['\\', 'n']
  else if c = '\r' then ['\\', 'r']
  else if c = '\t' then ['\\', 't']
  else if c = Char.ofNat 8 then ['\\', 'b']
  else if c = Char.ofNat 12 then ['\\', 'f']
  else if c.toNat < 32 then
    ['\\', 'u', '0', '0', hexDigitChar (c.toNat / 16), hexDigitChar (c.toNat % 16)]
  else [c]

/-- Quote and escape a string as `JSON.stringify` does. -/
def quoteString (s : String) : String :=
  "\"" ++ String.mk (s.toList.foldr (fun c acc => escapeChar c ++ acc) []) ++ "\""

/-- Decimal rendering of a rational: exact for integers and for
fractions with a power-of-ten-compatible denominator (every finite
decimal the cart ever produces); other denominators fall back to a
fraction spelling, a simplification of the host's shortest-round-trip
float printing that no theorem below depends on. -/
def ratToDecimal (q : Rat) : String :=
  let sign := if q < 0 then "-" else ""
  let n := q.num.natAbs
  let d := q.den
  if d = 1 then sign ++ toString n
  else
    match (List.range 65).find? (fun k => d ∣ 10 ^ k) with
    | some k =>
      let scaled := n * (10 ^ k / d)
      let frac := scaled % 10 ^ k
      sign ++ toString (scaled / 10 ^ k) ++ "." ++
        (toString (10 ^ k + frac)).drop 1
    | none => sign ++ toString n ++ "/" ++ toString d

mutual

/-- `JSON.stringify` on the modelled values (no indentation argument,
as in the source). -/
def jsonStringify : Json → String
  | .null => "null"
  | .bool true => "true"
  | .bool false => "false"
  | .num q => ratToDecimal q
  | .str s => quoteString s
  | .arr xs => "[" ++ stringifyElems xs ++ "]"
  | .obj fs => "\x7b" ++ stringifyFields fs ++ "\x7d"

/-- Comma-separated serialisation of array elements. -/
def stringifyElems : List Json → String
  | [] => ""
  | [x] => jsonStringify x
  | x :: y :: xs => jsonStringify x ++ "," ++ stringifyElems (y :: xs)

/-- Comma-separated serialisation of object fields. -/
def stringifyFields : List (String × Json) → String
  | [] => ""
  | [(k, v)] => quoteString k ++ ":" ++ jsonStringify v
  | (k, v) :: f :: fs =>
    quoteString k ++ ":" ++ jsonStringify v ++ "," ++ stringifyFields (f :: fs)

end

/-- Field lookup in a parsed object: the last binding wins, because
`JSON.parse` lets later duplicate keys overwrite earlier ones. -/
def lookupField (fields : List (String × Json)) (key : String) : Option Json :=
  ((fields.filter (fun f => f.1 == key)).getLast?).map (fun f => f.2)

/-- Reads a `CartLineItem` out of a JSON object of the shape the
provider itself persists (spec §3: string `productId`, `title`,
`imageUrl`; numeric `price`, `stock`; integral `quantity`). This is a
specification-side bridge used to state shape properties of the raw
restored state — the source performs no such decoding. -/
def decodeItem (v : Json) : Option CartLineItem :=
  match v with
  | .obj fs =>
    match lookupField fs "productId", lookupField fs "title",
          lookupField fs "price", lookupField fs "imageUrl",
          lookupField fs "stock", lookupField fs "quantity" with
    | some (.str pid), some (.str t), some (.num pr), some (.str url),
      some (.num st), some (.num qn) =>
      if qn.den = 1 then
        some { productId := pid, title := t, price := pr, imageUrl := url,
               stock := st, quantity := qn.num }
      else none
    | _, _, _, _, _, _ => none
  | _ => none

/-- Reads a full cart out of a JSON value, when it is an array of
line-item objects. -/
def decodeItems (v : Json) : Option (List CartLineItem) :=
  match v with
  | .arr xs => xs.mapM decodeItem
  | _ => none

/-- The JSON object a line item serialises to, fields in the order of
the object literal in `addToCart`. -/
def encodeItem (item : CartLineItem) : Json :=
  .obj [("productId", .str item.productId), ("title", .str item.title),
        ("price", .num item.price), ("imageUrl", .str item.imageUrl),
        ("stock", .num item.stock), ("quantity", .num (item.quantity : Rat))]

/-- The JSON array a cart serialises to. -/
def encodeItems (items : List CartLineItem) : Json :=
  .arr (items.map encodeItem)

/-! ### The provider state and its effects -/

/-- The provider state plus the storage collaborator: `cartItems` is
the raw React state (`JSON.parse` output is assigned to it verbatim, so
it is a JSON value), `loading` the flag, `storage` the current string
under the `"cartItems"` key of local storage (`none` = key absent). -/
structure StoreState where
  cartItems : Json
  loading : Bool
  storage : Option String

/-- The freshly mounted provider: `useState([])`, `useState(true)`,
over whatever the storage currently holds. -/
def initialState (stored : Option String) : StoreState :=
  { cartItems := Json.arr [], loading := true, storage := stored }

/-- The restore effect (source lines 21–39): read
`localStorage.getItem('cartItems')`; when the result is truthy (present
and non-empty — the empty string is falsy in JavaScript), `JSON.parse`
it and assign the parsed value to `cartItems` verbatim; when the parse
throws, remove the stored key; in every case (`finally`) set `loading`
to `false`. -/
def restore (s : StoreState) : StoreState :=
  match s.storage with
  | some storedCart =>
    if storedCart = "" then { s with loading := false }
    else
      match jsonParse storedCart with
      | some v => { s with cartItems := v, loading := false }
      | none => { s with storage := none, loading := false }
  | none => { s with loading := false }

/-- The persist effect (source lines 42–47): once `loading` is false,
write `JSON.stringify(cartItems)` under the key; while `loading` is
true the write is suppressed. -/
def persist (s : StoreState) : StoreState :=
  if s.loading then s
  else { s with storage := some (jsonStringify s.cartItems) }

/-- One step of the provider's event loop: either the one-shot restore
effect completing — after which the persist effect re-runs, its
dependencies `cartItems` and `loading` having changed — or a mutating
call arriving from the UI, which replaces `cartItems` and then triggers
the persist effect. -/
inductive Event where
  | restoreDone
  | mutate (op : CartOp)
deriving DecidableEq, Repr

/-- Run one event against the state. A mutating call made while
`cartItems` is not an array of line-item objects raises a `TypeError`
in the source before any `setCartItems` call is reached, leaving state
and storage unchanged; that outcome is the `none` branch. -/
def runEvent (s : StoreState) : Event → StoreState
  | .restoreDone => persist (restore s)
  | .mutate op =>
    match decodeItems s.cartItems with
    | some items => persist { s with cartItems := encodeItems (applyOp items op) }
    | none => s

/-- Run a sequence of events. -/
def runEvents (s : StoreState) (es : List Event) : StoreState :=
  es.foldl runEvent s

/-- A stored string holding a well-formed JSON array of two line-item
objects that share the product id `"p1"` — parseable, but not a valid
`CartState`. -/
def dupStoredText : String :=
  "[\x7b\"productId\":\"p1\",\"title\":\"A\",\"price\":5,\"imageUrl\":\"a\"," ++
  "\"stock\":1,\"quantity\":2\x7d," ++
  "\x7b\"productId\":\"p1\",\"title\":\"B\",\"price\":6,\"imageUrl\":\"b\"," ++
  "\"stock\":1,\"quantity\":1\x7d]"

/-- The first line item `dupStoredText` decodes to. -/
def dupItem1 : CartLineItem :=
  { productId := "p1", title := "A", price := 5, imageUrl := "a",
    stock := 1, quantity := 2 }

/-- The second line item `dupStoredText` decodes to. -/
def dupItem2 : CartLineItem :=
  { productId := "p1", title := "B", price := 6, imageUrl := "b",
    stock := 1, quantity := 1 }

/-- A product carrying the id of `prodA` but different values in every
other field. -/
def prodAv2 : Product := { idField := "p1", title := "Golden", price := 9,
                           imageUrl := "g.png", stock := 3 }

/-- A sample sequence of `addToCart` calls: `prodA` twice, `prodB` once. -/
def demoCalls : List (Product × Int) := [(prodA, 2), (prodB, 1), (prodA, 3)]

/-- A sample sequence of cart operations exercising all four mutators. -/
def demoOps : List CartOp :=
  [.add prodA 2, .add prodB 1, .update "p1" 7, .remove "p2",
   .add prodA 1, .clear, .add prodB 4]

/-- A sample event sequence containing mutations but no completed
restore. -/
def demoEvents : List Event := [.mutate (.add prodA 2), .mutate .clear]

/-! ### Basic list lemmas used by the characterisations below -/

theorem set_getElem_self {α : Type _} (l : List α) (j : Nat) (hlt : j < l.length) :
    l.set j l[j] = l := by
  apply List.ext_getElem (by simp)
  intro n h1 h2
  rw [List.getElem_set]
  rcases eq_or_ne j n with rfl | hne
  · simp
  · simp [hne]

theorem mapIdx_ite_set {α : Type _} (l : List α) (j : Nat) (f : α → α)
    (h : j < l.length) :
    l.mapIdx (fun i a => if i = j then f a else a) = l.set j (f l[j]) := by
  apply List.ext_getElem (by simp)
  intro n h1 h2
  rw [List.getElem_mapIdx, List.getElem_set]
  rcases eq_or_ne n j with rfl | hne
  · simp
  · simp [hne, Ne.symm hne]

theorem findIdx?_lt_length {α : Type _} {p : α → Bool} {l : List α} {j : Nat}
    (h : l.findIdx? p = some j) : j < l.length := by
  rcases List.findIdx?_eq_some_iff_getElem.mp h with ⟨h1, _, _⟩
  exact h1

theorem findIdx?_pred_true {α : Type _} {p : α → Bool} {l : List α} {j : Nat}
    (h : l.findIdx? p = some j) (hlt : j < l.length) : p l[j] = true := by
  rcases List.findIdx?_eq_some_iff_getElem.mp h with ⟨h1, h2, _⟩
  exact h2

/-! ### Characterisation of `addToCart` -/

theorem addToCart_of_findIdx?_eq_none {items : List CartLineItem}
    {product : Product} {q : Int}
    (h : items.findIdx? (fun item => item.productId == product.idField) = none) :
    addToCart items product q = items ++ [newLineItem product q] := by
  simp [addToCart, h]

theorem addToCart_of_findIdx?_eq_some {items : List CartLineItem}
    {product : Product} {q : Int} {j : Nat}
    (h : items.findIdx? (fun item => item.productId == product.idField) = some j)
    (hlt : j < items.length) :
    addToCart items product q =
      items.set j { items[j] with quantity := items[j].quantity + q } := by
  simp only [addToCart, h]
  exact mapIdx_ite_set items j (fun item => { item with quantity := item.quantity + q }) hlt

theorem qsum_nil (pid : String) : qsum pid [] = 0 := rfl

theorem qsum_cons (pid : String) (x : CartLineItem) (xs : List CartLineItem) :
    qsum pid (x :: xs) =
      (if x.productId = pid then x.quantity else 0) + qsum pid xs := by
  by_cases hx : x.productId = pid <;> simp [qsum, List.filter_cons, hx]

theorem qsum_append (pid : String) (l1 l2 : List CartLineItem) :
    qsum pid (l1 ++ l2) = qsum pid l1 + qsum pid l2 := by
  simp [qsum, List.filter_append]

theorem qsum_set (pid : String) (d : Int) :
    ∀ (items : List CartLineItem) (j : Nat) (hlt : j < items.length),
      qsum pid (items.set j { items[j] with quantity := items[j].quantity + d }) =
        qsum pid items + (if items[j].productId = pid then d else 0) := by
  intro items
  induction items with
  | nil => intro j hlt; simp at hlt
  | cons x xs ih =>
    intro j hlt
    cases j with
    | zero =>
      simp only [List.getElem_cons_zero, List.set_cons_zero, qsum_cons]
      by_cases hx : x.productId = pid
      · simp [hx]
        ring
      · simp [hx]
    | succ j =>
      have hlt' : j < xs.length := by simpa using hlt
      simp only [List.getElem_cons_succ, List.set_cons_succ, qsum_cons]
      rw [ih j hlt']
      ring

theorem qsum_addToCart (items : List CartLineItem) (product : Product)
    (q : Int) (pid : String) :
    qsum pid (addToCart items product q) =
      qsum pid items + (if product.idField = pid then q else 0) := by
  cases h : items.findIdx? (fun item => item.productId == product.idField) with
  | none =>
    rw [addToCart_of_findIdx?_eq_none h, qsum_append, qsum_cons, qsum_nil]
    simp [newLineItem]
  | some j =>
    have hlt := findIdx?_lt_length h
    have hpid : items[j].productId = product.idField := by
      have := findIdx?_pred_true h hlt
      simpa using this
    rw [addToCart_of_findIdx?_eq_some h hlt, qsum_set pid q items j hlt, hpid]

/-! ### Uniqueness of product ids -/

theorem map_productId_set_same {items : List CartLineItem} {j : Nat}
    (hlt : j < items.length) (it : CartLineItem)
    (hp : it.productId = items[j].productId) :
    (items.set j it).map (fun i => i.productId) =
      items.map (fun i => i.productId) := by
  apply List.ext_getElem (by simp)
  intro n h1 h2
  simp only [List.getElem_map, List.getElem_set]
  rcases eq_or_ne j n with rfl | hne
  · simp [hp]
  · simp [hne]

theorem nodup_map_productId_addToCart {items : List CartLineItem}
    {product : Product} {q : Int}
    (h : (items.map (fun i => i.productId)).Nodup) :
    ((addToCart items product q).map (fun i => i.productId)).Nodup := by
  cases hf : items.findIdx? (fun item => item.productId == product.idField) with
  | none =>
    rw [addToCart_of_findIdx?_eq_none hf, List.map_append, List.nodup_append]
    refine ⟨h, by simp, ?_⟩
    intro a ha hb
    simp [newLineItem] at hb
    subst hb
    rcases List.mem_map.mp ha with ⟨it, hit, hpid⟩
    have := List.findIdx?_eq_none_iff.mp hf it hit
    rw [hpid] at this
    simp at this
  | some j =>
    have hlt := findIdx?_lt_length hf
    rw [addToCart_of_findIdx?_eq_some hf hlt,
      map_productId_set_same hlt
        { items[j] with quantity := items[j].quantity + q } rfl]
    exact h

theorem nodup_map_productId_removeFromCart {items : List CartLineItem} {pid : String}
    (h : (items.map (fun i => i.productId)).Nodup) :
    ((removeFromCart items pid).map (fun i => i.productId)).Nodup := by
  exact ((List.filter_sublist items).map (fun i => i.productId)).nodup h

theorem map_productId_updateQuantity (items : List CartLineItem) (pid : String)
    (q : Int) :
    (updateQuantity items pid q).map (fun i => i.productId) =
      items.map (fun i => i.productId) := by
  apply List.ext_getElem (by simp [updateQuantity])
  intro n h1 h2
  simp only [updateQuantity, List.getElem_map]
  split <;> rfl

/-- In a list whose image under `f` has no duplicates, filtering for the
`f`-value of a member isolates exactly that member. -/
theorem filter_beq_eq_singleton {α β : Type _} [BEq β] [LawfulBEq β]
    {l : List α} {f : α → β} (h : (l.map f).Nodup) {a : α} (ha : a ∈ l) :
    l.filter (fun x => f x == f a) = [a] := by
  induction l with
  | nil => cases ha
  | cons x xs ih =>
    rw [List.map_cons, List.nodup_cons] at h
    rcases List.mem_cons.mp ha with rfl | ha
    · rw [List.filter_cons, if_pos (by simp)]
      have : xs.filter (fun y => f y == f a) = [] := by
        rw [List.filter_eq_nil_iff]
        intro y hy hbeq
        exact h.1 (List.mem_map.mpr ⟨y, hy, eq_of_beq hbeq⟩)
      rw [this]
    · rw [List.filter_cons, if_neg, ih h.2 ha]
      intro hbeq
      have hfa : f a ∈ xs.map f := List.mem_map.mpr ⟨a, ha, rfl⟩
      rw [eq_of_beq hbeq] at h
      exact h.1 hfa

/-! ### Sequences of `addToCart` calls and of general cart operations -/

theorem callSum_cons (pid : String) (c : Product × Int)
    (calls : List (Product × Int)) :
    callSum pid (c :: calls) =
      (if c.1.idField = pid then c.2 else 0) + callSum pid calls := by
  by_cases hc : c.1.idField = pid <;> simp [callSum, List.filter_cons, hc]

theorem qsum_foldl_adds (pid : String) :
    ∀ (calls : List (Product × Int)) (items : List CartLineItem),
      qsum pid (calls.foldl (fun acc c => addToCart acc c.1 c.2) items) =
        qsum pid items + callSum pid calls := by
  intro calls
  induction calls with
  | nil => intro items; simp [callSum]
  | cons c cs ih =>
    intro items
    rw [List.foldl_cons, ih, qsum_addToCart, callSum_cons]
    ring

theorem nodup_foldl_adds :
    ∀ (calls : List (Product × Int)) (items : List CartLineItem),
      (items.map (fun i => i.productId)).Nodup →
      ((calls.foldl (fun acc c => addToCart acc c.1 c.2) items).map
          (fun i => i.productId)).Nodup := by
  intro calls
  induction calls with
  | nil => intro items h; simpa using h
  | cons c cs ih =>
    intro items h
    rw [List.foldl_cons]
    exact ih _ (nodup_map_productId_addToCart h)

theorem nodup_map_productId_applyOp {items : List CartLineItem} (op : CartOp)
    (h : (items.map (fun i => i.productId)).Nodup) :
    ((applyOp items op).map (fun i => i.productId)).Nodup := by
  cases op with
  | add product quantity => exact nodup_map_productId_addToCart h
  | remove productId => exact nodup_map_productId_removeFromCart h
  | update productId newQuantity =>
    rw [applyOp, map_productId_updateQuantity]
    exact h
  | clear => simp [applyOp, clearCart]

theorem nodup_foldl_ops :
    ∀ (ops : List CartOp) (items : List CartLineItem),
      (items.map (fun i => i.productId)).Nodup →
      ((ops.foldl applyOp items).map (fun i => i.productId)).Nodup := by
  intro ops
  induction ops with
  | nil => intro items h; simpa using h
  | cons op rest ih =>
    intro items h
    rw [List.foldl_cons]
    exact ih _ (nodup_map_productId_applyOp op h)

/-! ### Fold-to-sum lemmas for the derived totals -/

theorem foldl_add_quantity (l : List CartLineItem) :
    ∀ a : Int, l.foldl (fun acc item => acc + item.quantity) a =
      a + (l.map (fun item => item.quantity)).sum := by
  induction l with
  | nil => intro a; simp
  | cons x xs ih =>
    intro a
    rw [List.foldl_cons, ih, List.map_cons, List.sum_cons]
    ring

theorem foldl_add_price (l : List CartLineItem) :
    ∀ a : Rat, l.foldl (fun acc item => acc + item.price * (item.quantity : Rat)) a =
      a + (l.map (fun item => item.price * (item.quantity : Rat))).sum := by
  induction l with
  | nil => intro a; simp
  | cons x xs ih =>
    intro a
    rw [List.foldl_cons, ih, List.map_cons, List.sum_cons]
    ring

/-! ### Remaining helper lemmas -/

theorem updateQuantity_noop :
    ∀ (items : List CartLineItem) (pid : String) (q : Int),
      (∀ item ∈ items, item.productId ≠ pid) →
      updateQuantity items pid q = items := by
  intro items pid q
  induction items with
  | nil => intro _; rfl
  | cons x xs ih =>
    intro h
    have hx : ¬(x.productId == pid) = true := by
      simpa using h x (List.mem_cons_self x xs)
    have hxs := ih (fun item hi => h item (List.mem_cons_of_mem x hi))
    simp only [updateQuantity, List.map_cons] at hxs ⊢
    rw [if_neg hx, hxs]

theorem runEvents_no_restore :
    ∀ (es : List Event) (s : StoreState),
      s.loading = true → Event.restoreDone ∉ es →
      (runEvents s es).storage = s.storage ∧ (runEvents s es).loading = true := by
  intro es
  induction es with
  | nil => intro s h _; exact ⟨rfl, h⟩
  | cons e rest ih =>
    intro s hl hne
    have hner : Event.restoreDone ∉ rest := fun hm => hne (List.mem_cons_of_mem e hm)
    cases e with
    | restoreDone => exact absurd (List.mem_cons_self _ _) hne
    | mutate op =>
      have hstep : (runEvent s (Event.mutate op)).storage = s.storage ∧
          (runEvent s (Event.mutate op)).loading = true := by
        rw [runEvent]
        cases hd : decodeItems s.cartItems with
        | none => exact ⟨rfl, hl⟩
        | some items => simp [persist, hl]
      have htail := ih (runEvent s (Event.mutate op)) hstep.2 hner
      rw [runEvents, List.foldl_cons]
      rw [runEvents] at htail
      exact ⟨hstep.1 ▸ htail.1, htail.2⟩

theorem restore_parsed {s : StoreState} {stored : String} {v : Json}
    (hs : s.storage = some stored) (hp : jsonParse stored = some v) :
    restore s = { s with cartItems := v, loading := false } := by
  have hne : stored ≠ "" := by
    intro h
    have h0 : jsonParse "" = (none : Option Json) := rfl
    rw [h, h0] at hp
    exact Option.noConfusion hp
  simp [restore, hs, hne, hp]

/-! ### The claims -/

/-- Claim C5: for every cart state, `totalItems` equals the sum of the
quantities of all line items, and `totalPrice` equals the sum of
`price * quantity` over all line items rendered as a decimal string
with exactly two fraction digits by the half-away-from-zero fixed-point
conversion `toFixed2` (the model of the host's `toFixed(2)`). -/
theorem claim5_totals (cartItems : List CartLineItem) :
    totalItems cartItems = (cartItems.map (fun item => item.quantity)).sum ∧
    totalPrice cartItems =
      toFixed2 ((cartItems.map (fun item =>
        item.price * (item.quantity : Rat))).sum) := by
  constructor
  · rw [totalItems, foldl_add_quantity]
    simp
  · rw [totalPrice, totalPriceNum, foldl_add_price]
    simp

/-- Claim C6: for every cart and every integer `newQuantity` (including
0 and negative values), `updateQuantity` writes `newQuantity` verbatim
into every position whose item matches `productId`, performs no
lower-bound check and no removal (every position of the cart is still
present, non-matching ones untouched), and is a silent no-op when no
item matches. -/
theorem claim6_updateQuantity (cartItems : List CartLineItem)
    (productId : String) (newQuantity : Int) :
    (∀ n : Nat,
      (updateQuantity cartItems productId newQuantity)[n]? =
        (cartItems[n]?).map (fun item =>
          if item.productId = productId then
            { item with quantity := newQuantity }
          else item)) ∧
    ((∀ item ∈ cartItems, item.productId ≠ productId) →
      updateQuantity cartItems productId newQuantity = cartItems) := by
  constructor
  · intro n
    simp only [updateQuantity, List.getElem?_map]
    cases cartItems[n]? with
    | none => rfl
    | some item =>
      by_cases h : item.productId = productId <;> simp [h]
  · exact updateQuantity_noop cartItems productId newQuantity

/-- Concrete instance of claim C6, at quantity `-2` and at an absent
product id. -/
theorem claim6_witness :
    (updateQuantity [itemA] "p1" (-2))[0]? =
      (([itemA] : List CartLineItem)[0]?).map (fun item =>
        if item.productId = "p1" then { item with quantity := (-2 : Int) }
        else item) ∧
    updateQuantity [itemA] "zz" 5 = [itemA] :=
  ⟨(claim6_updateQuantity [itemA] "p1" (-2)).1 0,
   (claim6_updateQuantity [itemA] "zz" 5).2 (by decide)⟩

/-- Claim C7: `removeFromCart` removes exactly the matching line items,
keeps every other item unchanged and in order (the result is a sublist
whose members are the non-matching members of the input), and is a
silent no-op when nothing matches. -/
theorem claim7_removeFromCart (cartItems : List CartLineItem)
    (productId : String) :
    (removeFromCart cartItems productId).Sublist cartItems ∧
    (∀ item, item ∈ removeFromCart cartItems productId ↔
      item ∈ cartItems ∧ item.productId ≠ productId) ∧
    ((∀ item ∈ cartItems, item.productId ≠ productId) →
      removeFromCart cartItems productId = cartItems) := by
  refine ⟨List.filter_sublist cartItems, ?_, ?_⟩
  · intro item
    simp [removeFromCart, List.mem_filter]
  · intro h
    rw [removeFromCart, List.filter_eq_self]
    intro a ha
    simpa using h a ha

/-- Concrete instance of claim C7, removing `"p1"` and removing an
absent id. -/
theorem claim7_witness :
    (removeFromCart [itemA, itemB] "p1").Sublist [itemA, itemB] ∧
    (itemB ∈ removeFromCart [itemA, itemB] "p1" ↔
      itemB ∈ ([itemA, itemB] : List CartLineItem) ∧ itemB.productId ≠ "p1") ∧
    removeFromCart [itemA, itemB] "zz" = [itemA, itemB] :=
  ⟨(claim7_removeFromCart [itemA, itemB] "p1").1,
   (claim7_removeFromCart [itemA, itemB] "p1").2.1 itemB,
   (claim7_removeFromCart [itemA, itemB] "zz").2.2 (by decide)⟩

/-- Claim C8: on a cart containing the product, `removeFromCart` of its
id followed by `addToCart` with quantity `q` leaves, for that product,
exactly the line item that adding to a fresh cart builds — the freshly
built item with quantity exactly `q`, no residual quantity. -/
theorem claim8_remove_then_add (cartItems : List CartLineItem)
    (product : Product) (q : Int)
    (_h : ∃ item ∈ cartItems, item.productId = product.idField) :
    (addToCart (removeFromCart cartItems product.idField) product q).filter
        (fun item => item.productId == product.idField) =
      addToCart [] product q ∧
    addToCart [] product q = [newLineItem product q] ∧
    (newLineItem product q).quantity = q := by
  have hbase : addToCart [] product q = [newLineItem product q] := rfl
  have hnone : (removeFromCart cartItems product.idField).findIdx?
      (fun item => item.productId == product.idField) = none := by
    rw [List.findIdx?_eq_none_iff]
    intro x hx
    exact beq_eq_false_iff_ne.mpr
      (bne_iff_ne.mp (List.mem_filter.mp hx).2)
  refine ⟨?_, hbase, rfl⟩
  rw [addToCart_of_findIdx?_eq_none hnone, List.filter_append]
  have h1 : (removeFromCart cartItems product.idField).filter
      (fun item => item.productId == product.idField) = [] := by
    rw [List.filter_eq_nil_iff]
    intro a ha
    have := List.findIdx?_eq_none_iff.mp hnone a ha
    simp [this]
  rw [h1, hbase]
  simp [newLineItem]

/-- Concrete instance of claim C8 on a cart holding `prodA` with
quantity 2: after remove and re-add with quantity 7 the `p1` line item
is the fresh one with quantity exactly 7. -/
theorem claim8_witness :
    (addToCart (removeFromCart [itemA, itemB] prodA.idField) prodA 7).filter
        (fun item => item.productId == prodA.idField) =
      addToCart [] prodA 7 ∧
    addToCart [] prodA 7 = [newLineItem prodA 7] ∧
    (newLineItem prodA 7).quantity = 7 :=
  claim8_remove_then_add [itemA, itemB] prodA 7 (by decide)

/-- Claim C10: when `addToCart` finds an existing line item (index `j`),
the result agrees with the input cart at every other position, and at
`j` only the quantity field changes — the stored title, price, imageUrl
and stock are kept, and no field of the passed product other than its
id is consulted. -/
theorem claim10_addToCart_frame (cartItems : List CartLineItem)
    (product : Product) (q : Int) (j : Nat)
    (h : cartItems.findIdx? (fun item => item.productId == product.idField) =
      some j) :
    ∀ n : Nat,
      (addToCart cartItems product q)[n]? =
        if n = j then
          (cartItems[n]?).map (fun item =>
            { item with quantity := item.quantity + q })
        else cartItems[n]? := by
  intro n
  have hlt := findIdx?_lt_length h
  rw [addToCart_of_findIdx?_eq_some h hlt, List.getElem?_set]
  rcases eq_or_ne n j with rfl | hne
  · simp [hlt, List.getElem?_eq_getElem hlt]
  · simp [hne, Ne.symm hne]

/-- Concrete instance of claim C10: re-adding `p1` through a product
that carries different title, price, imageUrl and stock only bumps the
stored quantity of position 0 and leaves position 1 untouched. -/
theorem claim10_witness :
    (addToCart [itemA, itemB] prodAv2 5)[0]? =
      (([itemA, itemB] : List CartLineItem)[0]?).map (fun item =>
        { item with quantity := item.quantity + 5 }) ∧
    (addToCart [itemA, itemB] prodAv2 5)[1]? =
      ([itemA, itemB] : List CartLineItem)[1]? := by
  have h : ([itemA, itemB] : List CartLineItem).findIdx?
      (fun item => item.productId == prodAv2.idField) = some 0 := by decide
  constructor
  · simpa using claim10_addToCart_frame [itemA, itemB] prodAv2 5 0 h 0
  · simpa using claim10_addToCart_frame [itemA, itemB] prodAv2 5 0 h 1

/-- Claim C1: every sequence of `addToCart` calls applied to the empty
cart yields at most one line item per distinct product id, and the
quantity of each present item equals the sum of the quantities passed
for its product id across the calls (a call with the omitted default is
a call with quantity 1). -/
theorem claim1_add_sequence (calls : List (Product × Int)) :
    ((applyAdds calls).map (fun item => item.productId)).Nodup ∧
    ∀ item ∈ applyAdds calls,
      item.quantity = callSum item.productId calls := by
  have hnodup : ((applyAdds calls).map (fun item => item.productId)).Nodup :=
    nodup_foldl_adds calls [] (by simp)
  refine ⟨hnodup, ?_⟩
  intro item hitem
  have hq : qsum item.productId (applyAdds calls) =
      callSum item.productId calls := by
    have := qsum_foldl_adds item.productId calls []
    simpa [applyAdds, qsum_nil] using this
  have hfilter : (applyAdds calls).filter
      (fun x => x.productId == item.productId) = [item] :=
    filter_beq_eq_singleton hnodup hitem
  have hqi : qsum item.productId (applyAdds calls) = item.quantity := by
    rw [qsum, hfilter]
    simp
  rw [← hqi, hq]

/-- Concrete instance of claim C1 on the call sequence
`[(prodA, 2), (prodB, 1), (prodA, 3)]`: unique ids, and the `p1` item
carries quantity `2 + 3 = 5`. -/
theorem claim1_witness :
    ((applyAdds demoCalls).map (fun item => item.productId)).Nodup ∧
    (newLineItem prodA 5).quantity =
      callSum (newLineItem prodA 5).productId demoCalls :=
  ⟨(claim1_add_sequence demoCalls).1,
   (claim1_add_sequence demoCalls).2 (newLineItem prodA 5) (by decide)⟩

/-- Claim C2 counterexample: the state reached by running the restore
effect over storage holding `dupStoredText` — a well-formed JSON array
— carries two `CartLineItem`s with the same product id, so the
uniqueness invariant does not hold at every reachable state. -/
theorem claim2_counterexample :
    decodeItems (restore (initialState (some dupStoredText))).cartItems =
      some [dupItem1, dupItem2] ∧
    dupItem1.productId = dupItem2.productId ∧
    ¬ ((((decodeItems
        (restore (initialState (some dupStoredText))).cartItems).getD
          []).map (fun item => item.productId)).Nodup) :=
  ⟨rfl, rfl, by decide⟩

/-- Claim C2 (amended): the items list contains at most one
`CartLineItem` per productId at every state reached from the empty cart
by any sequence of `addToCart`, `removeFromCart`, `updateQuantity` and
`clearCart`; and the restore effect preserves the stored line items
verbatim, so a restored state satisfies the invariant exactly when the
parsed stored array does — restore of a parseable array with duplicate
product ids violates it. -/
theorem claim2_amended :
    (∀ ops : List CartOp,
      ((applyOps ops).map (fun item => item.productId)).Nodup) ∧
    (∀ (s : StoreState) (stored : String) (v : Json)
        (items : List CartLineItem),
      s.storage = some stored → jsonParse stored = some v →
      decodeItems v = some items →
      decodeItems (restore s).cartItems = some items) := by
  constructor
  · intro ops
    exact nodup_foldl_ops ops [] (by simp)
  · intro s stored v items hs hp hd
    rw [restore_parsed hs hp]
    exact hd

/-- Concrete instance of claim C2 (amended): a sequence exercising all
four operations keeps ids unique, and restoring the stored text `"[]"`
decodes back to the empty cart. -/
theorem claim2_witness :
    ((applyOps demoOps).map (fun item => item.productId)).Nodup ∧
    decodeItems (restore (initialState (some "[]"))).cartItems = some [] :=
  ⟨claim2_amended.1 demoOps,
   claim2_amended.2 (initialState (some "[]")) "[]" (Json.arr []) []
     rfl rfl rfl⟩

/-- Claim C3 counterexample: the empty string is a stored string that
fails to parse as JSON, yet restoring over it does not delete the
stored key — `if (storedCart)` treats the empty string as absent, so
the removal branch is never reached. -/
theorem claim3_counterexample :
    jsonParse "" = none ∧
    (restore (initialState (some ""))).storage = some "" ∧
    (restore (initialState (some ""))).storage ≠ none :=
  ⟨rfl, rfl, by decide⟩

/-- Claim C3 (amended): when restore reads a stored nonempty string
that fails to parse as JSON, it does not throw, leaves the cart empty,
deletes the stored key from storage, and afterwards sets
loading-complete; a parse failure is never fatal. (The empty string
also fails to parse but is treated as an absent key: cart empty, no
throw, loading complete, key retained.) -/
theorem claim3_amended (stored : String) (hne : stored ≠ "")
    (hp : jsonParse stored = none) :
    restore (initialState (some stored)) =
      { cartItems := Json.arr [], loading := false, storage := none } := by
  simp [restore, initialState, hne, hp]

/-- Concrete instance of claim C3 (amended) at the stored string
`"not json"`. -/
theorem claim3_witness :
    "not json" ≠ "" ∧
    jsonParse "not json" = none ∧
    restore (initialState (some "not json")) =
      { cartItems := Json.arr [], loading := false, storage := none } :=
  ⟨by decide, rfl, claim3_amended "not json" (by decide) rfl⟩

/-- Claim C4: in every event sequence without a completed restore, no
write to the storage key ever happens — the storage content stays
exactly what it was at mount, and the provider still reports loading —
so mutations performed before restore completes are not persisted. -/
theorem claim4_no_write_before_restore (stored : Option String)
    (es : List Event) (h : Event.restoreDone ∉ es) :
    (runEvents (initialState stored) es).storage = stored ∧
    (runEvents (initialState stored) es).loading = true := by
  have := runEvents_no_restore es (initialState stored) rfl h
  simpa [initialState] using this

/-- Concrete instance of claim C4: two mutations before restore leave
the stored string `"seed"` untouched. -/
theorem claim4_witness :
    (runEvents (initialState (some "seed")) demoEvents).storage =
      some "seed" ∧
    (runEvents (initialState (some "seed")) demoEvents).loading = true :=
  claim4_no_write_before_restore (some "seed") demoEvents (by decide)

/-- Claim C9: restore performs no shape validation — whenever the
stored string parses as JSON, of any shape whatsoever, the parsed value
is assigned to the items state verbatim (and the derived totals are
computed from that same state on every render). -/
theorem claim9_restore_verbatim (stored : String) (v : Json)
    (hp : jsonParse stored = some v) (s : StoreState)
    (hs : s.storage = some stored) :
    restore s = { s with cartItems := v, loading := false } :=
  restore_parsed hs hp

/-- Concrete instance of claim C9: the stored string `"5"` parses to
the JSON number 5, which is assigned to the items state verbatim even
though it is not a cart at all. -/
theorem claim9_witness :
    jsonParse "5" = some (Json.num 5) ∧
    restore (initialState (some "5")) =
      { cartItems := Json.num 5, loading := false, storage := some "5" } :=
  ⟨rfl, by
    have := claim9_restore_verbatim "5" (Json.num 5) rfl
      (initialState (some "5")) rfl
    simpa [initialState] using this⟩

end CartContext
